import Mathlib

/-!
# Verification of the call-coaching backend conversation core

Shallow embedding of the conversation service, the recommendation store and
the socket-level coaching orchestrator (conversation state machine, timer
bookkeeping and event emission) of the call-coaching backend, together with
proofs of the specified properties.

Conventions of the embedding:
* JavaScript `Map` objects are embedded as insertion-ordered association
  lists (`JsMap`); `set` on an existing key updates it in place, on a fresh
  key it appends, matching JS `Map` iteration-order semantics.
* `Date.now()` and `uuidv4()` are passed in explicitly as `now` / `newId`
  arguments.
* JavaScript truthiness tests on optional strings / numbers
  (`!conversation.capturedResponse`, `!c.endTime`) are embedded by
  `strFalsy` / `natFalsy`: `undefined`, `""` and `0` are falsy.
* The opaque AI calls (`generateGreetingTip`, `generateContextualTip`) are
  passed in as an `Except String AITipPayload` argument at their `await`
  point: `.ok tip` is a successful generation, `.error e` a thrown failure.
* Pending timers are recorded per conversation id with their deadline.  A
  timer that has fired, or whose handle was passed to `clearTimeout`, is
  removed from the map: a stale fired handle left in a JS map is
  observationally equivalent to an absent one (`clearTimeout` on it is a
  no-op), so this quotient is faithful.
-/

namespace CallCoach

/-! ## Data model (src/types/index.ts) -/

inductive Speaker
  | agent
  | caller
  deriving DecidableEq, Repr

structure TranscriptSegment where
  speaker : Speaker
  text : String
  timestamp : Nat
  confidence : Nat
  deriving DecidableEq, Repr

structure DialogueOption where
  label : String
  script : String
  deriving DecidableEq, Repr

structure AITipPayload where
  recommendationId : String
  conversationId : String
  stage : String
  heading : String
  context : String
  options : List DialogueOption
  timestamp : Nat
  deriving DecidableEq, Repr

inductive CoachingState
  | IDLE
  | DISPLAYING_TIP
  | CAPTURING_AGENT_RESPONSE
  | CAPTURING_CUSTOMER_REACTION
  | GENERATING_NEXT
  deriving DecidableEq, Repr

structure Conversation where
  id : String
  agentId : String
  startTime : Nat
  endTime : Option Nat := none
  transcriptHistory : List TranscriptSegment := []
  lastAnalysisTime : Option Nat := none
  state : Option CoachingState := none
  lastSelectedRecommendationId : Option String := none
  lastSelectedScript : Option String := none
  lastScriptType : Option String := none
  lastScriptTimestamp : Option Nat := none
  capturedResponse : Option String := none
  customerReaction : Option String := none
  responseTimestamp : Option Nat := none
  reactionTimestamp : Option Nat := none
  deriving DecidableEq, Repr

structure TranscriptPayload where
  conversationId : String
  speaker : Speaker
  text : String
  isFinal : Bool
  timestamp : Nat
  deriving DecidableEq, Repr

/-! ## JavaScript `Map` embedding -/

/-- A JavaScript `Map` with string keys: an association list in insertion
order. -/
abbrev JsMap (α : Type) : Type := List (String × α)

namespace JsMap

/-- `Map.prototype.get`. -/
def get {α : Type} (m : JsMap α) (k : String) : Option α :=
  match m with
  | [] => none
  | (k2, v) :: rest => if k2 = k then some v else get rest k

/-- `Map.prototype.set`: update in place on an existing key, append on a
fresh one. -/
def set {α : Type} (m : JsMap α) (k : String) (v : α) : JsMap α :=
  match m with
  | [] => [(k, v)]
  | (k2, v2) :: rest => if k2 = k then (k2, v) :: rest else (k2, v2) :: set rest k v

/-- `Map.prototype.delete`. -/
def del {α : Type} (m : JsMap α) (k : String) : JsMap α :=
  match m with
  | [] => []
  | (k2, v2) :: rest => if k2 = k then rest else (k2, v2) :: del rest k

/-- `Array.from(m.keys())`. -/
def keys {α : Type} (m : JsMap α) : List String := m.map Prod.fst

/-- `Array.from(m.values())`. -/
def values {α : Type} (m : JsMap α) : List α := m.map Prod.snd

/-- `Map.prototype.size`. -/
def size {α : Type} (m : JsMap α) : Nat := m.length

end JsMap

/-- JavaScript truthiness of an optional string: `undefined` and `""` are
falsy. -/
def strFalsy : Option String → Bool
  | none => true
  | some s => s == ""

/-- JavaScript truthiness of an optional number: `undefined` and `0` are
falsy. -/
def natFalsy : Option Nat → Bool
  | none => true
  | some n => n == 0

/-! ## ConversationService (src/services/conversation.service.ts) -/

structure ConversationService where
  conversations : JsMap Conversation := []
  recommendations : JsMap AITipPayload := []
  deriving DecidableEq, Repr

namespace ConversationService

/-- `startConversation(agentId, metadata?)`; `uuidv4()` and `Date.now()` are
the `newId` / `now` arguments.  The opaque `metadata` record is not
modelled (it is never inspected by the core). -/
def startConversation (svc : ConversationService) (newId agentId : String) (now : Nat) :
    Conversation × ConversationService :=
  let conversation : Conversation :=
    { id := newId, agentId := agentId, startTime := now, transcriptHistory := [],
      state := some CoachingState.IDLE }
  (conversation,
   { svc with conversations := JsMap.set svc.conversations conversation.id conversation })

/-- `addTranscript(conversationId, transcript)`: push, then keep the last 50
(`slice(-50)`) when the history exceeds 50. -/
def addTranscript (svc : ConversationService) (conversationId : String)
    (transcript : TranscriptSegment) : Bool × ConversationService :=
  match JsMap.get svc.conversations conversationId with
  | none => (false, svc)
  | some conversation =>
    let hist := conversation.transcriptHistory ++ [transcript]
    let hist := if hist.length > 50 then hist.rtake 50 else hist
    (true,
     { svc with conversations := (JsMap.set svc.conversations conversationId
        { conversation with transcriptHistory := hist }) })

/-- `getConversation(conversationId)`. -/
def getConversation (svc : ConversationService) (conversationId : String) :
    Option Conversation :=
  JsMap.get svc.conversations conversationId

/-- `getTranscriptHistory(conversationId)`: `conversation?.transcriptHistory || []`
(an array is always truthy in JS, so a present conversation always yields
its history). -/
def getTranscriptHistory (svc : ConversationService) (conversationId : String) :
    List TranscriptSegment :=
  match getConversation svc conversationId with
  | none => []
  | some c => c.transcriptHistory

/-- `endConversation(conversationId)`: records `endTime = Date.now()`.  The
5-minute delayed eviction it schedules is `cleanupConversation` below, run
as a separate later step. -/
def endConversation (svc : ConversationService) (conversationId : String) (now : Nat) :
    Bool × ConversationService :=
  match JsMap.get svc.conversations conversationId with
  | none => (false, svc)
  | some conversation =>
    (true, { svc with conversations := (JsMap.set svc.conversations conversationId
      { conversation with endTime := some now }) })

/-- The delayed memory eviction scheduled by `endConversation` (fires 5
minutes after the end). -/
def cleanupConversation (svc : ConversationService) (conversationId : String) :
    ConversationService :=
  { svc with conversations := JsMap.del svc.conversations conversationId }

/-- `updateLastAnalysisTime(conversationId)`. -/
def updateLastAnalysisTime (svc : ConversationService) (conversationId : String)
    (now : Nat) : Bool × ConversationService :=
  match JsMap.get svc.conversations conversationId with
  | none => (false, svc)
  | some conversation =>
    (true, { svc with conversations := (JsMap.set svc.conversations conversationId
      { conversation with lastAnalysisTime := some now }) })

/-- `getActiveConversations()`: `values().filter((c) => !c.endTime)`. -/
def getActiveConversations (svc : ConversationService) : List Conversation :=
  (JsMap.values svc.conversations).filter (fun c => natFalsy c.endTime)

/-- `storeRecommendation(recommendation)`: upsert by id, then delete the
oldest keys past the 100-entry cap (`keys.slice(0, keys.length - 100)`). -/
def storeRecommendation (svc : ConversationService) (recommendation : AITipPayload) :
    ConversationService :=
  let recs := JsMap.set svc.recommendations recommendation.recommendationId recommendation
  let recs :=
    if JsMap.size recs > 100 then
      let ks := JsMap.keys recs
      let toDelete := ks.take (ks.length - 100)
      toDelete.foldl (fun m k => JsMap.del m k) recs
    else recs
  { svc with recommendations := recs }

/-- `getRecommendation(recommendationId)`. -/
def getRecommendation (svc : ConversationService) (recommendationId : String) :
    Option AITipPayload :=
  JsMap.get svc.recommendations recommendationId

/-- `updateState(conversationId, state)`. -/
def updateState (svc : ConversationService) (conversationId : String)
    (state : CoachingState) : Bool × ConversationService :=
  match JsMap.get svc.conversations conversationId with
  | none => (false, svc)
  | some conversation =>
    (true, { svc with conversations := (JsMap.set svc.conversations conversationId
      { conversation with state := some state }) })

/-- `storeSelectedScript(conversationId, recommendationId, _selectedOption,
scriptText, scriptType)`: records the selection, transitions to
`CAPTURING_AGENT_RESPONSE` and resets both capture buffers. -/
def storeSelectedScript (svc : ConversationService) (conversationId : String)
    (recommendationId : String) (_selectedOption : Nat) (scriptText : String)
    (scriptType : String) (now : Nat) : Bool × ConversationService :=
  match JsMap.get svc.conversations conversationId with
  | none => (false, svc)
  | some conversation =>
    (true, { svc with conversations := (JsMap.set svc.conversations conversationId
      { conversation with
          lastSelectedRecommendationId := some recommendationId,
          lastSelectedScript := some scriptText,
          lastScriptType := some scriptType,
          lastScriptTimestamp := some now,
          state := some CoachingState.CAPTURING_AGENT_RESPONSE,
          capturedResponse := some "",
          customerReaction := some "" }) })

/-- Body of `appendAgentResponse` on the conversation record: the branch is
on JS truthiness of the accumulated buffer (`!conversation.capturedResponse`). -/
def appendAgentResponseConv (conversation : Conversation) (text : String) (now : Nat) :
    Conversation :=
  if strFalsy conversation.capturedResponse then
    { conversation with capturedResponse := some text, responseTimestamp := some now }
  else
    { conversation with
        capturedResponse := conversation.capturedResponse.map (fun s => s ++ " " ++ text) }

/-- `appendAgentResponse(conversationId, text)`. -/
def appendAgentResponse (svc : ConversationService) (conversationId : String)
    (text : String) (now : Nat) : Bool × ConversationService :=
  match JsMap.get svc.conversations conversationId with
  | none => (false, svc)
  | some conversation =>
    (true, { svc with conversations := (JsMap.set svc.conversations conversationId
      (appendAgentResponseConv conversation text now)) })

/-- Body of `appendCustomerReaction` on the conversation record. -/
def appendCustomerReactionConv (conversation : Conversation) (text : String) (now : Nat) :
    Conversation :=
  if strFalsy conversation.customerReaction then
    { conversation with customerReaction := some text, reactionTimestamp := some now }
  else
    { conversation with
        customerReaction := conversation.customerReaction.map (fun s => s ++ " " ++ text) }

/-- `appendCustomerReaction(conversationId, text)`. -/
def appendCustomerReaction (svc : ConversationService) (conversationId : String)
    (text : String) (now : Nat) : Bool × ConversationService :=
  match JsMap.get svc.conversations conversationId with
  | none => (false, svc)
  | some conversation =>
    (true, { svc with conversations := (JsMap.set svc.conversations conversationId
      (appendCustomerReactionConv conversation text now)) })

/-- `resetResponseCapture(conversationId)`: clears both buffers and returns
to `DISPLAYING_TIP`. -/
def resetResponseCapture (svc : ConversationService) (conversationId : String) :
    Bool × ConversationService :=
  match JsMap.get svc.conversations conversationId with
  | none => (false, svc)
  | some conversation =>
    (true, { svc with conversations := (JsMap.set svc.conversations conversationId
      { conversation with
          capturedResponse := some "",
          customerReaction := some "",
          state := some CoachingState.DISPLAYING_TIP }) })

end ConversationService

/-- Shorthand for building a final transcript segment as the `TRANSCRIPT`
handler does (`confidence` defaulted to 1). -/
def seg (sp : Speaker) (txt : String) (ts : Nat) : TranscriptSegment :=
  { speaker := sp, text := txt, timestamp := ts, confidence := 1 }

/-! ## Coaching orchestrator (socket connection handler in the server file)

One `ServerState` embeds one socket connection's closure state: the shared
`conversationService`, the connection-local timer maps
(`autoModeTimers`, `responseTimeouts`, `reactionTimeouts`), the pending
warmup `setTimeout`s (whose handles the source never stores anywhere), and
the events emitted to the client so far. -/

structure ErrorPayload where
  conversationId : Option String
  message : String
  code : String
  timestamp : Nat
  deriving DecidableEq, Repr

inductive OutEvent
  | conversationStarted (conversationId : String) (timestamp : Nat)
  | aiTip (tip : AITipPayload)
  | errorEvent (e : ErrorPayload)
  | conversationEnded (conversationId : String) (timestamp : Nat)
  deriving DecidableEq, Repr

structure ServerState where
  svc : ConversationService := {}
  /-- Pending warmup `setTimeout` per conversation (deadline).  The source
  keeps no handle to this timer, so no handler can ever clear it. -/
  warmupTimers : JsMap Nat := []
  /-- `autoModeTimers`: the periodic 30-second `setInterval` per conversation. -/
  autoModeTimers : JsMap Unit := []
  /-- `responseTimeouts`: pending response-silence `setTimeout` (deadline). -/
  responseTimeouts : JsMap Nat := []
  /-- `reactionTimeouts`: pending reaction-silence `setTimeout` (deadline). -/
  reactionTimeouts : JsMap Nat := []
  /-- Events emitted on this socket, oldest first. -/
  events : List OutEvent := []
  deriving DecidableEq, Repr

/-- `socket.emit`. -/
def emit (st : ServerState) (e : OutEvent) : ServerState :=
  { st with events := st.events ++ [e] }

/-- `START_CONVERSATION` handler: create the conversation, acknowledge, and
arm the 3-minute warmup `setTimeout`. -/
def startConversationHandler (st : ServerState) (newId agentId : String) (now : Nat) :
    ServerState :=
  let r := ConversationService.startConversation st.svc newId agentId now
  let st := { st with svc := r.2 }
  let st := emit st (.conversationStarted r.1.id now)
  { st with warmupTimers := JsMap.set st.warmupTimers r.1.id (now + 3 * 60 * 1000) }

/-- Body of the warmup `setTimeout`: generate the greeting tip
(`greeting` is the outcome of the opaque `generateGreetingTip` call); on
success store it, show it and arm the 30-second auto-mode interval; on
failure emit a `GREETING_ERROR`. -/
def fireWarmupTimer (st : ServerState) (conversationId : String)
    (greeting : Except String AITipPayload) (now : Nat) : ServerState :=
  let st := { st with warmupTimers := JsMap.del st.warmupTimers conversationId }
  match greeting with
  | .ok tip =>
    let svc := ConversationService.storeRecommendation st.svc tip
    let svc := (ConversationService.updateState svc conversationId
      CoachingState.DISPLAYING_TIP).2
    let st := { st with svc := svc }
    let st := emit st (.aiTip tip)
    { st with autoModeTimers := JsMap.set st.autoModeTimers conversationId () }
  | .error _ =>
    emit st (.errorEvent
      { conversationId := some conversationId, message := "Failed to generate greeting",
        code := "GREETING_ERROR", timestamp := now })

/-- `generateContextualNextTip(conversationId)`: move to `GENERATING_NEXT`,
run the opaque `generateContextualTip` call (`gen`), then either store the
tip, reset the capture state and send it, or on failure roll the state back
to `DISPLAYING_TIP` and emit a `CONTEXTUAL_TIP_ERROR`. -/
def generateContextualNextTip (st : ServerState) (conversationId : String)
    (gen : Except String AITipPayload) (now : Nat) : ServerState :=
  match ConversationService.getConversation st.svc conversationId with
  | none => st
  | some _ =>
    let st := { st with svc := (ConversationService.updateState st.svc conversationId
      CoachingState.GENERATING_NEXT).2 }
    match gen with
    | .ok tip =>
      let svc := ConversationService.storeRecommendation st.svc tip
      let svc := (ConversationService.resetResponseCapture svc conversationId).2
      let st := { st with svc := svc }
      emit st (.aiTip tip)
    | .error _ =>
      let st := { st with svc := (ConversationService.updateState st.svc conversationId
        CoachingState.DISPLAYING_TIP).2 }
      emit st (.errorEvent
        { conversationId := some conversationId, message := "Failed to generate next tip",
          code := "CONTEXTUAL_TIP_ERROR", timestamp := now })

/-- `TRANSCRIPT` handler: drop interim transcripts; always store final ones;
then drive the capture state machine, rearming the matching silence
`setTimeout` (clear-then-set, embedded as an overwrite of the pending
deadline). -/
def transcriptHandler (st : ServerState) (p : TranscriptPayload) (now : Nat) :
    ServerState :=
  if !p.isFinal then st
  else
    let transcript : TranscriptSegment := seg p.speaker p.text p.timestamp
    let r := ConversationService.addTranscript st.svc p.conversationId transcript
    let st := { st with svc := r.2 }
    if !r.1 then st
    else
      match ConversationService.getConversation st.svc p.conversationId with
      | none => st
      | some conversation =>
        match conversation.state with
        | none => st
        | some s =>
          if s = CoachingState.CAPTURING_AGENT_RESPONSE ∧ p.speaker = Speaker.agent then
            let st := { st with svc := (ConversationService.appendAgentResponse st.svc
              p.conversationId p.text now).2 }
            { st with responseTimeouts :=
                JsMap.set st.responseTimeouts p.conversationId (now + 3000) }
          else if s = CoachingState.CAPTURING_CUSTOMER_REACTION ∧ p.speaker = Speaker.caller
          then
            let st := { st with svc := (ConversationService.appendCustomerReaction st.svc
              p.conversationId p.text now).2 }
            { st with reactionTimeouts :=
                JsMap.set st.reactionTimeouts p.conversationId (now + 3000) }
          else st

/-- Body of the response-silence `setTimeout`: transition to
`CAPTURING_CUSTOMER_REACTION` and arm the 30-second no-reply fallback
reaction `setTimeout`. -/
def fireResponseTimeout (st : ServerState) (conversationId : String) (now : Nat) :
    ServerState :=
  let st := { st with responseTimeouts := JsMap.del st.responseTimeouts conversationId }
  match ConversationService.getConversation st.svc conversationId with
  | none => st
  | some _ =>
    let st := { st with svc := (ConversationService.updateState st.svc conversationId
      CoachingState.CAPTURING_CUSTOMER_REACTION).2 }
    { st with reactionTimeouts :=
        JsMap.set st.reactionTimeouts conversationId (now + 30000) }

/-- Body of the reaction-silence `setTimeout` (both the 30-second fallback
and the 3-second post-speech variant): generate the contextual next tip. -/
def fireReactionTimeout (st : ServerState) (conversationId : String)
    (gen : Except String AITipPayload) (now : Nat) : ServerState :=
  let st := { st with reactionTimeouts := JsMap.del st.reactionTimeouts conversationId }
  generateContextualNextTip st conversationId gen now

/-- JavaScript indexing `options[selectedOption - 1]` for the 1-based
`selectedOption` (`selectedOption = 0` indexes at `-1`, which is
`undefined`). -/
def jsOptionAt (options : List DialogueOption) (selectedOption : Nat) :
    Option DialogueOption :=
  if selectedOption = 0 then none else options.get? (selectedOption - 1)

/-- `OPTION_SELECTED` handler: look the recommendation up; a missing
recommendation or an out-of-range option is a logged no-op; otherwise store
the chosen script into the recommendation's conversation. -/
def optionSelectedHandler (st : ServerState) (recommendationId : String)
    (selectedOption : Nat) (now : Nat) : ServerState :=
  match ConversationService.getRecommendation st.svc recommendationId with
  | none => st
  | some recommendation =>
    match jsOptionAt recommendation.options selectedOption with
    | none => st
    | some sel =>
      { st with svc := (ConversationService.storeSelectedScript st.svc
          recommendation.conversationId recommendationId selectedOption
          sel.script sel.label now).2 }

/-- `END_CONVERSATION` handler: clear the auto-mode interval for this
conversation (and only that timer), mark the conversation ended, and
acknowledge. -/
def endConversationHandler (st : ServerState) (conversationId : String) (now : Nat) :
    ServerState :=
  let st := { st with autoModeTimers := JsMap.del st.autoModeTimers conversationId }
  let st := { st with svc := (ConversationService.endConversation st.svc conversationId now).2 }
  emit st (.conversationEnded conversationId now)

/-- `disconnect` handler: clear every auto-mode interval and every
response/reaction `setTimeout` held by this connection.  (It has no handle
to pending warmup `setTimeout`s, so those are untouched.) -/
def disconnectHandler (st : ServerState) : ServerState :=
  { st with autoModeTimers := [], responseTimeouts := [], reactionTimeouts := [] }

/-! ## Derived definitions used by the verification -/

/-- A sequence of `addTranscript` calls, each an `(conversationId, segment)`
pair. -/
def applyTranscripts (svc : ConversationService)
    (ops : List (String × TranscriptSegment)) : ConversationService :=
  ops.foldl (fun s op => (ConversationService.addTranscript s op.1 op.2).2) svc

/-- The segments of an `addTranscript` call sequence addressed to one
conversation, in call order. -/
def segmentsFor (conversationId : String)
    (ops : List (String × TranscriptSegment)) : List TranscriptSegment :=
  (ops.filter (fun op => op.1 == conversationId)).map Prod.snd

/-- A sequence of `storeRecommendation` calls. -/
def storeAll (svc : ConversationService) (tips : List AITipPayload) :
    ConversationService :=
  tips.foldl ConversationService.storeRecommendation svc

/-- The association-list image of a list of tips, keyed by id. -/
def recPairs (tips : List AITipPayload) : JsMap AITipPayload :=
  tips.map (fun t => (t.recommendationId, t))

/-- A sequence of `appendAgentResponse` bodies on one conversation record,
each a `(text, now)` pair. -/
def appendAgentResponses (c : Conversation) (xs : List (String × Nat)) : Conversation :=
  xs.foldl (fun conv p => ConversationService.appendAgentResponseConv conv p.1 p.2) c

/-- A sequence of `appendCustomerReaction` bodies on one conversation
record. -/
def appendCustomerReactions (c : Conversation) (xs : List (String × Nat)) : Conversation :=
  xs.foldl (fun conv p => ConversationService.appendCustomerReactionConv conv p.1 p.2) c

/-- The accumulation policy exactly as the specification words it: the first
segment's text is the buffer, each later text is appended separated by a
single space. -/
def specAccum (texts : List String) : String :=
  match texts with
  | [] => ""
  | t :: rest => rest.foldl (fun acc u => acc ++ " " ++ u) t

/-- A concrete conversation used by the closed witness statements. -/
def demoConv : Conversation :=
  { id := "c1", agentId := "a1", startTime := 100, state := some CoachingState.IDLE }

/-- A concrete service holding `demoConv`. -/
def demoSvc : ConversationService :=
  { conversations := [("c1", demoConv)], recommendations := [] }

/-- A concrete `addTranscript` call sequence touching two conversations. -/
def demoOps : List (String × TranscriptSegment) :=
  [("c1", seg Speaker.agent "hi" 1), ("zz", seg Speaker.caller "x" 2),
   ("c1", seg Speaker.caller "yo" 3)]

/-- A concrete two-option recommendation. -/
def demoTip : AITipPayload :=
  { recommendationId := "rec1", conversationId := "conv1", stage := "GREETING",
    heading := "Intro", context := "start of call",
    options := [{ label := "Minimal", script := "hello there" },
                { label := "Explanative", script := "hello, my name is A" }],
    timestamp := 181000 }

/-- Concrete orchestrator run: start a conversation, fire the warmup
greeting successfully, select option 1, receive one final agent segment
(arming the response-silence timer), then process `END_CONVERSATION`. -/
def c4State : ServerState :=
  let st := startConversationHandler {} "conv1" "agent1" 1000
  let st := fireWarmupTimer st "conv1" (Except.ok demoTip) 181000
  let st := optionSelectedHandler st "rec1" 1 181500
  let st := transcriptHandler st ⟨"conv1", Speaker.agent, "hi", true, 182000⟩ 182000
  endConversationHandler st "conv1" 183000

/-- A conversation in a fresh capture window (as produced by
`storeSelectedScript`: both buffers reset to `""`). -/
def c6Window : Conversation :=
  { id := "conv1", agentId := "agent1", startTime := 0,
    state := some CoachingState.CAPTURING_AGENT_RESPONSE,
    lastScriptTimestamp := some 3,
    capturedResponse := some "", customerReaction := some "" }

/-- Two matching agent segments in the same capture window, the first with
empty text (arriving at `t = 5`), the second nonempty (at `t = 9`). -/
def c6Run : Conversation :=
  appendAgentResponses c6Window [("", 5), ("how are you", 9)]

/-- A conversation in a customer-capture window as it actually occurs: the
response-silence timer has fired after agent speech, so `capturedResponse`
is nonempty while `customerReaction` is still the reset `""`. -/
def c6CustomerWindow : Conversation :=
  { id := "conv1", agentId := "agent1", startTime := 0,
    state := some CoachingState.CAPTURING_CUSTOMER_REACTION,
    lastScriptTimestamp := some 3,
    capturedResponse := some "hello there", responseTimestamp := some 5,
    customerReaction := some "" }

/-- A server state holding only the recommendation `demoTip`. -/
def c7State : ServerState :=
  { svc := { conversations := [("c1", demoConv)], recommendations := [("rec1", demoTip)] } }

/-- Distinct recommendation ids for the eviction witness. -/
def mkTipId (i : Nat) : String := String.mk (List.replicate i 'a')

/-- A tip with id `mkTipId i`. -/
def mkTip (i : Nat) : AITipPayload :=
  { recommendationId := mkTipId i, conversationId := "conv1", stage := "GREETING",
    heading := "h", context := "c",
    options := [{ label := "Minimal", script := "s" }], timestamp := i }

/-- 101 tips with pairwise-distinct ids. -/
def tips101 : List AITipPayload := (List.range 101).map mkTip

/-! ## Lemmas about the `JsMap` embedding -/

theorem JsMap.get_set_self {α : Type} (m : JsMap α) (k : String) (v : α) :
    JsMap.get (JsMap.set m k v) k = some v := by
  induction m with
  | nil => simp [JsMap.get, JsMap.set]
  | cons hd tl ih =>
    obtain ⟨k2, v2⟩ := hd
    by_cases h : k2 = k
    · simp [JsMap.set, JsMap.get, h]
    · simp [JsMap.set, JsMap.get, h, ih]

theorem JsMap.get_set_ne {α : Type} (m : JsMap α) (k k2 : String) (v : α)
    (hne : k ≠ k2) : JsMap.get (JsMap.set m k v) k2 = JsMap.get m k2 := by
  induction m with
  | nil => simp [JsMap.get, JsMap.set, hne]
  | cons hd tl ih =>
    obtain ⟨k3, v3⟩ := hd
    by_cases h : k3 = k
    · subst h
      simp [JsMap.set, JsMap.get, hne]
    · simp [JsMap.set, JsMap.get, h, ih]

theorem JsMap.get_del_ne {α : Type} (m : JsMap α) (k k2 : String)
    (hne : k ≠ k2) : JsMap.get (JsMap.del m k) k2 = JsMap.get m k2 := by
  induction m with
  | nil => simp [JsMap.del]
  | cons hd tl ih =>
    obtain ⟨k3, v3⟩ := hd
    by_cases h : k3 = k
    · subst h
      simp [JsMap.del, JsMap.get, hne]
    · simp [JsMap.del, JsMap.get, h, ih]

theorem JsMap.get_eq_none_iff {α : Type} (m : JsMap α) (k : String) :
    JsMap.get m k = none ↔ k ∉ JsMap.keys m := by
  induction m with
  | nil => simp [JsMap.get, JsMap.keys]
  | cons hd tl ih =>
    obtain ⟨k2, v2⟩ := hd
    by_cases h : k2 = k
    · simp [JsMap.get, JsMap.keys, h]
    · simp [JsMap.get, JsMap.keys, h, ih, Ne.symm h]

theorem JsMap.set_eq_append {α : Type} (m : JsMap α) (k : String) (v : α)
    (h : JsMap.get m k = none) : JsMap.set m k v = m ++ [(k, v)] := by
  induction m with
  | nil => simp [JsMap.set]
  | cons hd tl ih =>
    obtain ⟨k2, v2⟩ := hd
    by_cases h2 : k2 = k
    · simp [JsMap.get, h2] at h
    · simp only [JsMap.set, if_neg h2, List.cons_append, List.cons.injEq, true_and]
      exact ih (by simpa [JsMap.get, h2] using h)

theorem JsMap.length_set_of_get_some {α : Type} (m : JsMap α) (k : String) (v w : α)
    (h : JsMap.get m k = some w) : (JsMap.set m k v).length = m.length := by
  induction m with
  | nil => simp [JsMap.get] at h
  | cons hd tl ih =>
    obtain ⟨k2, v2⟩ := hd
    by_cases h2 : k2 = k
    · simp [JsMap.set, h2]
    · simp only [JsMap.set, if_neg h2, List.length_cons]
      rw [ih (by simpa [JsMap.get, h2] using h)]

theorem JsMap.get_append_of_none {α : Type} (a b : JsMap α) (k : String)
    (h : JsMap.get a k = none) : JsMap.get (a ++ b) k = JsMap.get b k := by
  induction a with
  | nil => simp
  | cons hd tl ih =>
    obtain ⟨k2, v2⟩ := hd
    by_cases h2 : k2 = k
    · simp [JsMap.get, h2] at h
    · simp only [List.cons_append, JsMap.get, if_neg h2]
      exact ih (by simpa [JsMap.get, h2] using h)

/-! ## Lemmas about history truncation (`slice(-50)` = `List.rtake 50`) -/

theorem length_rtake_le {α : Type} (l : List α) (n : Nat) : (l.rtake n).length ≤ n := by
  simp only [List.rtake, List.length_drop]
  omega

theorem rtake_of_length_le {α : Type} (l : List α) (n : Nat) (h : l.length ≤ n) :
    l.rtake n = l := by
  simp [List.rtake, Nat.sub_eq_zero_of_le h]

theorem take_append_take {α : Type} (n : Nat) (a b : List α) :
    (a ++ b.take n).take n = (a ++ b).take n := by
  rw [List.take_append_eq_append_take, List.take_append_eq_append_take, List.take_take,
    Nat.min_eq_left (Nat.sub_le n a.length)]

theorem rtake_append_left {α : Type} (n : Nat) (l m : List α) :
    (l.rtake n ++ m).rtake n = (l ++ m).rtake n := by
  simp only [List.rtake_eq_reverse_take_reverse, List.reverse_append, List.reverse_reverse]
  rw [take_append_take]

theorem trunc_eq_rtake {α : Type} (l : List α) :
    (if l.length > 50 then l.rtake 50 else l) = l.rtake 50 := by
  split
  · rfl
  · rw [rtake_of_length_le]
    omega

/-! ## Behaviour of `addTranscript` -/

theorem segmentsFor_cons_self (cid : String) (t : TranscriptSegment)
    (rest : List (String × TranscriptSegment)) :
    segmentsFor cid ((cid, t) :: rest) = t :: segmentsFor cid rest := by
  simp [segmentsFor]

theorem segmentsFor_cons_ne (cid k : String) (t : TranscriptSegment)
    (rest : List (String × TranscriptSegment)) (hk : k ≠ cid) :
    segmentsFor cid ((k, t) :: rest) = segmentsFor cid rest := by
  simp [segmentsFor, hk]

theorem getConversation_addTranscript_self (svc : ConversationService) (cid : String)
    (t : TranscriptSegment) (c : Conversation)
    (h : ConversationService.getConversation svc cid = some c) :
    ConversationService.getConversation (ConversationService.addTranscript svc cid t).2 cid
      = some { c with transcriptHistory := (c.transcriptHistory ++ [t]).rtake 50 } := by
  rw [ConversationService.getConversation] at h
  simp only [ConversationService.addTranscript, ConversationService.getConversation, h,
    trunc_eq_rtake]
  exact JsMap.get_set_self _ _ _

theorem getConversation_addTranscript_ne (svc : ConversationService) (cid cid2 : String)
    (t : TranscriptSegment) (hne : cid ≠ cid2) :
    ConversationService.getConversation (ConversationService.addTranscript svc cid t).2 cid2
      = ConversationService.getConversation svc cid2 := by
  cases hget : JsMap.get svc.conversations cid with
  | none => simp [ConversationService.addTranscript, ConversationService.getConversation, hget]
  | some c =>
    simp [ConversationService.addTranscript, ConversationService.getConversation, hget,
      JsMap.get_set_ne _ _ _ _ hne]

theorem applyTranscripts_get (ops : List (String × TranscriptSegment)) :
    ∀ (svc : ConversationService) (cid : String) (c0 : Conversation),
      ConversationService.getConversation svc cid = some c0 →
      c0.transcriptHistory.length ≤ 50 →
      ConversationService.getConversation (applyTranscripts svc ops) cid =
        some { c0 with
          transcriptHistory := (c0.transcriptHistory ++ segmentsFor cid ops).rtake 50 } := by
  induction ops with
  | nil =>
    intro svc cid c0 h hb
    simpa [applyTranscripts, segmentsFor, rtake_of_length_le _ _ hb] using h
  | cons op rest ih =>
    obtain ⟨k, t⟩ := op
    intro svc cid c0 h hb
    have hstep : applyTranscripts svc ((k, t) :: rest)
        = applyTranscripts (ConversationService.addTranscript svc k t).2 rest := rfl
    rw [hstep]
    by_cases hk : k = cid
    · subst hk
      have h1 := getConversation_addTranscript_self svc k t c0 h
      have h2 := ih _ _ _ h1 (length_rtake_le _ _)
      rw [h2, segmentsFor_cons_self]
      simp only [Option.some.injEq, Conversation.mk.injEq, and_true, true_and]
      rw [rtake_append_left]
      simp
    · have h1 : ConversationService.getConversation
          (ConversationService.addTranscript svc k t).2 cid = some c0 := by
        rw [getConversation_addTranscript_ne svc k cid t hk]
        exact h
      have h2 := ih _ _ _ h1 hb
      rw [h2, segmentsFor_cons_ne _ _ _ _ hk]

/-- C1: for every conversation and every sequence of `addTranscript` calls,
the transcript history never exceeds 50 segments, and it is exactly the 50
most recently appended segments in append order (oldest dropped first). -/
theorem addTranscript_history_bounded (svc : ConversationService)
    (ops : List (String × TranscriptSegment)) (conversationId : String)
    (c0 c1 : Conversation)
    (h0 : ConversationService.getConversation svc conversationId = some c0)
    (hb : c0.transcriptHistory.length ≤ 50)
    (h1 : ConversationService.getConversation (applyTranscripts svc ops) conversationId
      = some c1) :
    c1.transcriptHistory.length ≤ 50 ∧
    c1.transcriptHistory
      = (c0.transcriptHistory ++ segmentsFor conversationId ops).rtake 50 := by
  have hmain := applyTranscripts_get ops svc conversationId c0 h0 hb
  rw [h1] at hmain
  injection hmain with hmain
  subst hmain
  exact ⟨length_rtake_le _ _, rfl⟩

/-- Witness for C1: the theorem applied to a concrete two-conversation run. -/
theorem addTranscript_history_bounded_witness :
    ({ demoConv with
        transcriptHistory := [seg Speaker.agent "hi" 1, seg Speaker.caller "yo" 3]
      } : Conversation).transcriptHistory.length ≤ 50 ∧
    ({ demoConv with
        transcriptHistory := [seg Speaker.agent "hi" 1, seg Speaker.caller "yo" 3]
      } : Conversation).transcriptHistory
      = (demoConv.transcriptHistory ++ segmentsFor "c1" demoOps).rtake 50 :=
  addTranscript_history_bounded demoSvc demoOps "c1" demoConv _ (by decide) (by decide)
    (by decide)

/-! ## C2: option selection resets the capture window -/

/-- C2: on an existing conversation, `storeSelectedScript` succeeds and, in
any prior state, resets both capture buffers to `""`, moves to
`CAPTURING_AGENT_RESPONSE`, and records the selected recommendation id,
script text, script label and the selection timestamp. -/
theorem storeSelectedScript_resets_capture (svc : ConversationService)
    (conversationId recommendationId scriptText scriptType : String)
    (selectedOption now : Nat) (c : Conversation)
    (h : ConversationService.getConversation svc conversationId = some c) :
    (ConversationService.storeSelectedScript svc conversationId recommendationId
      selectedOption scriptText scriptType now).1 = true ∧
    ConversationService.getConversation
      (ConversationService.storeSelectedScript svc conversationId recommendationId
        selectedOption scriptText scriptType now).2 conversationId
      = some { c with
          lastSelectedRecommendationId := some recommendationId,
          lastSelectedScript := some scriptText,
          lastScriptType := some scriptType,
          lastScriptTimestamp := some now,
          state := some CoachingState.CAPTURING_AGENT_RESPONSE,
          capturedResponse := some "",
          customerReaction := some "" } := by
  rw [ConversationService.getConversation] at h
  constructor
  · simp [ConversationService.storeSelectedScript, h]
  · simp [ConversationService.storeSelectedScript, ConversationService.getConversation, h,
      JsMap.get_set_self]

/-! ## C8: transcript routing and its frame -/

theorem appendAgentResponseConv_transcriptHistory (c : Conversation) (tx : String)
    (now : Nat) :
    (ConversationService.appendAgentResponseConv c tx now).transcriptHistory
      = c.transcriptHistory := by
  unfold ConversationService.appendAgentResponseConv
  split <;> rfl

theorem appendCustomerReactionConv_transcriptHistory (c : Conversation) (tx : String)
    (now : Nat) :
    (ConversationService.appendCustomerReactionConv c tx now).transcriptHistory
      = c.transcriptHistory := by
  unfold ConversationService.appendCustomerReactionConv
  split <;> rfl

theorem getConversation_appendAgent_self (svc : ConversationService) (cid : String)
    (tx : String) (now : Nat) (c : Conversation)
    (h : ConversationService.getConversation svc cid = some c) :
    ConversationService.getConversation
        (ConversationService.appendAgentResponse svc cid tx now).2 cid
      = some (ConversationService.appendAgentResponseConv c tx now) := by
  have h' : JsMap.get svc.conversations cid = some c := h
  simp only [ConversationService.appendAgentResponse, h',
    ConversationService.getConversation]
  exact JsMap.get_set_self _ _ _

theorem getConversation_appendCustomer_self (svc : ConversationService) (cid : String)
    (tx : String) (now : Nat) (c : Conversation)
    (h : ConversationService.getConversation svc cid = some c) :
    ConversationService.getConversation
        (ConversationService.appendCustomerReaction svc cid tx now).2 cid
      = some (ConversationService.appendCustomerReactionConv c tx now) := by
  have h' : JsMap.get svc.conversations cid = some c := h
  simp only [ConversationService.appendCustomerReaction, h',
    ConversationService.getConversation]
  exact JsMap.get_set_self _ _ _

/-- C8: a final transcript segment for an existing conversation is always
appended to its history, in every state; and unless the state/speaker pair
matches a capture window (`CAPTURING_AGENT_RESPONSE` with an agent segment,
or `CAPTURING_CUSTOMER_REACTION` with a caller segment), the handler's
whole effect is that append: every timer map, the emitted events, the
conversation's state, buffers and timestamps, and every other conversation
are unchanged. -/
theorem transcript_always_stored_frame (st : ServerState) (p : TranscriptPayload)
    (now : Nat) (c : Conversation) (hfin : p.isFinal = true)
    (hc : ConversationService.getConversation st.svc p.conversationId = some c) :
    (∃ c2, ConversationService.getConversation
        (transcriptHandler st p now).svc p.conversationId = some c2 ∧
      c2.transcriptHistory
        = (c.transcriptHistory ++ [seg p.speaker p.text p.timestamp]).rtake 50) ∧
    ((¬ (c.state = some CoachingState.CAPTURING_AGENT_RESPONSE
          ∧ p.speaker = Speaker.agent) ∧
      ¬ (c.state = some CoachingState.CAPTURING_CUSTOMER_REACTION
          ∧ p.speaker = Speaker.caller)) →
      transcriptHandler st p now
        = { st with svc := (ConversationService.addTranscript st.svc p.conversationId
            (seg p.speaker p.text p.timestamp)).2 }) := by
  have hc' : JsMap.get st.svc.conversations p.conversationId = some c := hc
  have hfst : (ConversationService.addTranscript st.svc p.conversationId
      (seg p.speaker p.text p.timestamp)).1 = true := by
    simp [ConversationService.addTranscript, hc']
  have hadd := getConversation_addTranscript_self st.svc p.conversationId
    (seg p.speaker p.text p.timestamp) c hc
  by_cases h1 : c.state = some CoachingState.CAPTURING_AGENT_RESPONSE
      ∧ p.speaker = Speaker.agent
  · have hrun : transcriptHandler st p now
        = { st with
            svc := (ConversationService.appendAgentResponse
              (ConversationService.addTranscript st.svc p.conversationId
                (seg p.speaker p.text p.timestamp)).2 p.conversationId p.text now).2,
            responseTimeouts :=
              JsMap.set st.responseTimeouts p.conversationId (now + 3000) } := by
      rw [h1.2] at hfst hadd
      simp [transcriptHandler, hfin, hfst, hadd, h1.1, h1.2]
    refine ⟨⟨ConversationService.appendAgentResponseConv
        { c with transcriptHistory := (c.transcriptHistory
            ++ [seg p.speaker p.text p.timestamp]).rtake 50 } p.text now, ?_, ?_⟩, ?_⟩
    · rw [hrun]
      exact getConversation_appendAgent_self _ _ _ _ _ hadd
    · rw [appendAgentResponseConv_transcriptHistory]
    · intro hq
      exact absurd h1 hq.1
  · by_cases h2 : c.state = some CoachingState.CAPTURING_CUSTOMER_REACTION
        ∧ p.speaker = Speaker.caller
    · have hrun : transcriptHandler st p now
          = { st with
              svc := (ConversationService.appendCustomerReaction
                (ConversationService.addTranscript st.svc p.conversationId
                  (seg p.speaker p.text p.timestamp)).2 p.conversationId p.text now).2,
              reactionTimeouts :=
                JsMap.set st.reactionTimeouts p.conversationId (now + 3000) } := by
        rw [h2.2] at hfst hadd
        simp [transcriptHandler, hfin, hfst, hadd, h1, h2.1, h2.2]
      refine ⟨⟨ConversationService.appendCustomerReactionConv
          { c with transcriptHistory := (c.transcriptHistory
              ++ [seg p.speaker p.text p.timestamp]).rtake 50 } p.text now, ?_, ?_⟩, ?_⟩
      · rw [hrun]
        exact getConversation_appendCustomer_self _ _ _ _ _ hadd
      · rw [appendCustomerReactionConv_transcriptHistory]
      · intro hq
        exact absurd h2 hq.2
    · have hrun : transcriptHandler st p now
          = { st with svc := (ConversationService.addTranscript st.svc p.conversationId
              (seg p.speaker p.text p.timestamp)).2 } := by
        cases hs : c.state with
        | none => simp [transcriptHandler, hfin, hfst, hadd, hs]
        | some s =>
          have hna : ¬ (s = CoachingState.CAPTURING_AGENT_RESPONSE
              ∧ p.speaker = Speaker.agent) := by
            intro hx
            exact h1 ⟨by rw [hs, hx.1], hx.2⟩
          have hnb : ¬ (s = CoachingState.CAPTURING_CUSTOMER_REACTION
              ∧ p.speaker = Speaker.caller) := by
            intro hx
            exact h2 ⟨by rw [hs, hx.1], hx.2⟩
          simp [transcriptHandler, hfin, hfst, hadd, hs, hna, hnb]
      refine ⟨⟨{ c with transcriptHistory := (c.transcriptHistory
            ++ [seg p.speaker p.text p.timestamp]).rtake 50 }, ?_, rfl⟩, fun _ => hrun⟩
      rw [hrun]
      exact hadd

/-- Witness for C8: a caller segment arriving while the conversation is in
`CAPTURING_AGENT_RESPONSE` (the wrong speaker for that capture state). -/
theorem transcript_always_stored_frame_witness :
    (∃ c2, ConversationService.getConversation
        (transcriptHandler { svc := { conversations := [("c1", c6Window)] } }
          ⟨"c1", Speaker.caller, "hm", true, 4⟩ 4).svc "c1" = some c2 ∧
      c2.transcriptHistory
        = (c6Window.transcriptHistory ++ [seg Speaker.caller "hm" 4]).rtake 50) ∧
    ((¬ (c6Window.state = some CoachingState.CAPTURING_AGENT_RESPONSE
          ∧ Speaker.caller = Speaker.agent) ∧
      ¬ (c6Window.state = some CoachingState.CAPTURING_CUSTOMER_REACTION
          ∧ Speaker.caller = Speaker.caller)) →
      transcriptHandler { svc := { conversations := [("c1", c6Window)] } }
          ⟨"c1", Speaker.caller, "hm", true, 4⟩ 4
        = { ({ svc := { conversations := [("c1", c6Window)] } } : ServerState) with
            svc := (ConversationService.addTranscript
              ({ svc := { conversations := [("c1", c6Window)] } } : ServerState).svc "c1"
              (seg Speaker.caller "hm" 4)).2 }) :=
  transcript_always_stored_frame { svc := { conversations := [("c1", c6Window)] } }
    ⟨"c1", Speaker.caller, "hm", true, 4⟩ 4 c6Window (by decide) (by decide)

/-! ## C4: END_CONVERSATION and timer cancellation (code bug) -/

/-- C4 exhibit: in the concrete run `c4State`, `END_CONVERSATION` has been
processed, yet the response-silence timer armed by the last agent segment is
still pending; firing it mutates the ended conversation to
`CAPTURING_CUSTOMER_REACTION` and arms a reaction-silence timer.  And a
disconnect leaves a pending warmup timer armed (its handle is stored
nowhere).  This contradicts the claim that ending a conversation (or
disconnecting) cancels every outstanding timer. -/
theorem end_conversation_leaves_timers_armed :
    JsMap.get c4State.responseTimeouts "conv1" = some 185000 ∧
    Option.map Conversation.endTime
        (ConversationService.getConversation c4State.svc "conv1") = some (some 183000) ∧
    Option.map Conversation.state
        (ConversationService.getConversation
          (fireResponseTimeout c4State "conv1" 186000).svc "conv1")
      = some (some CoachingState.CAPTURING_CUSTOMER_REACTION) ∧
    JsMap.get (fireResponseTimeout c4State "conv1" 186000).reactionTimeouts "conv1"
      = some 216000 ∧
    JsMap.get (disconnectHandler
        (startConversationHandler {} "conv2" "agent2" 1000)).warmupTimers "conv2"
      = some 181000 := by
  decide

/-! ## C6: capture-buffer accumulation -/

/-- C6 counterexample: in a fresh capture window, an empty-text agent
segment at `t = 5` followed by a nonempty one at `t = 9` ends with the
buffer's recorded timestamp equal to 9, not the first matching segment's 5
(and the buffer holds the second text alone, not a space-joined
accumulation): the branch is on buffer emptiness, not on being the first
segment of the window. -/
theorem append_empty_text_retimestamps :
    c6Run.responseTimestamp = some 9 ∧ c6Run.responseTimestamp ≠ some 5 ∧
    c6Run.capturedResponse = some "how are you" := by
  decide

theorem append_ne_empty_string (s u : String) : s ++ " " ++ u ≠ "" := by
  intro h
  have hlen := congrArg String.length h
  simp only [String.length_append] at hlen
  have h1 : (" " : String).length = 1 := rfl
  have h2 : ("" : String).length = 0 := rfl
  omega

theorem appendAgentResponses_of_nonempty (xs : List (String × Nat)) :
    ∀ (c : Conversation) (s : String), c.capturedResponse = some s → s ≠ "" →
      (appendAgentResponses c xs).capturedResponse
        = some (xs.foldl (fun acc p => acc ++ " " ++ p.1) s) ∧
      (appendAgentResponses c xs).responseTimestamp = c.responseTimestamp := by
  induction xs with
  | nil =>
    intro c s hs _
    exact ⟨by simpa [appendAgentResponses] using hs, rfl⟩
  | cons x rest ih =>
    intro c s hs hne
    obtain ⟨u, m⟩ := x
    have hfal : strFalsy (some s) = false := by
      simpa [strFalsy] using hne
    have hstep : ConversationService.appendAgentResponseConv c u m
        = { c with capturedResponse := some (s ++ " " ++ u) } := by
      simp [ConversationService.appendAgentResponseConv, hs, hfal]
    have hx := ih { c with capturedResponse := some (s ++ " " ++ u) } (s ++ " " ++ u) rfl
      (append_ne_empty_string s u)
    have hrun : appendAgentResponses c ((u, m) :: rest)
        = appendAgentResponses { c with capturedResponse := some (s ++ " " ++ u) } rest := by
      show appendAgentResponses (ConversationService.appendAgentResponseConv c u m) rest = _
      rw [hstep]
    rw [hrun]
    exact ⟨hx.1, hx.2⟩

theorem appendCustomerReactions_of_nonempty (xs : List (String × Nat)) :
    ∀ (c : Conversation) (s : String), c.customerReaction = some s → s ≠ "" →
      (appendCustomerReactions c xs).customerReaction
        = some (xs.foldl (fun acc p => acc ++ " " ++ p.1) s) ∧
      (appendCustomerReactions c xs).reactionTimestamp = c.reactionTimestamp := by
  induction xs with
  | nil =>
    intro c s hs _
    exact ⟨by simpa [appendCustomerReactions] using hs, rfl⟩
  | cons x rest ih =>
    intro c s hs hne
    obtain ⟨u, m⟩ := x
    have hfal : strFalsy (some s) = false := by
      simpa [strFalsy] using hne
    have hstep : ConversationService.appendCustomerReactionConv c u m
        = { c with customerReaction := some (s ++ " " ++ u) } := by
      simp [ConversationService.appendCustomerReactionConv, hs, hfal]
    have hx := ih { c with customerReaction := some (s ++ " " ++ u) } (s ++ " " ++ u) rfl
      (append_ne_empty_string s u)
    have hrun : appendCustomerReactions c ((u, m) :: rest)
        = appendCustomerReactions { c with customerReaction := some (s ++ " " ++ u) } rest := by
      show appendCustomerReactions (ConversationService.appendCustomerReactionConv c u m)
        rest = _
      rw [hstep]
    rw [hrun]
    exact ⟨hx.1, hx.2⟩

/-- C6 amended: within a capture window (the relevant buffer empty), a
matching segment arriving while that buffer is still empty sets it and
(re)records its timestamp; once the buffer is nonempty, every further
matching segment is appended separated by a single space with the timestamp
unchanged.  In particular, when the first captured segment has nonempty
text, the window accumulates exactly the spec's space-joined concatenation
and keeps the first segment's capture timestamp.  The two halves are
independent: each buffer's behaviour depends only on its own emptiness, so
the customer half applies to real customer-capture windows in which
`capturedResponse` already holds the agent's speech. -/
theorem append_accumulation_nonempty (c : Conversation) (t0 : String) (n0 : Nat)
    (rest : List (String × Nat))
    (ht0 : t0 ≠ "") :
    (strFalsy c.capturedResponse = true →
      (appendAgentResponses c ((t0, n0) :: rest)).capturedResponse
          = some (specAccum (t0 :: rest.map Prod.fst)) ∧
      (appendAgentResponses c ((t0, n0) :: rest)).responseTimestamp = some n0) ∧
    (strFalsy c.customerReaction = true →
      (appendCustomerReactions c ((t0, n0) :: rest)).customerReaction
          = some (specAccum (t0 :: rest.map Prod.fst)) ∧
      (appendCustomerReactions c ((t0, n0) :: rest)).reactionTimestamp = some n0) := by
  have hspec : specAccum (t0 :: rest.map Prod.fst)
      = rest.foldl (fun acc p => acc ++ " " ++ p.1) t0 := by
    simp [specAccum, List.foldl_map]
  constructor
  · intro hbufA
    have hstepA : ConversationService.appendAgentResponseConv c t0 n0
        = { c with capturedResponse := some t0, responseTimestamp := some n0 } := by
      simp [ConversationService.appendAgentResponseConv, hbufA]
    have hrunA : appendAgentResponses c ((t0, n0) :: rest)
        = appendAgentResponses
            { c with capturedResponse := some t0, responseTimestamp := some n0 } rest := by
      show appendAgentResponses (ConversationService.appendAgentResponseConv c t0 n0)
        rest = _
      rw [hstepA]
    have hA := appendAgentResponses_of_nonempty rest
      { c with capturedResponse := some t0, responseTimestamp := some n0 } t0 rfl ht0
    rw [hrunA, hspec]
    exact ⟨hA.1, hA.2⟩
  · intro hbufC
    have hstepC : ConversationService.appendCustomerReactionConv c t0 n0
        = { c with customerReaction := some t0, reactionTimestamp := some n0 } := by
      simp [ConversationService.appendCustomerReactionConv, hbufC]
    have hrunC : appendCustomerReactions c ((t0, n0) :: rest)
        = appendCustomerReactions
            { c with customerReaction := some t0, reactionTimestamp := some n0 } rest := by
      show appendCustomerReactions (ConversationService.appendCustomerReactionConv c t0 n0)
        rest = _
      rw [hstepC]
    have hC := appendCustomerReactions_of_nonempty rest
      { c with customerReaction := some t0, reactionTimestamp := some n0 } t0 rfl ht0
    rw [hrunC, hspec]
    exact ⟨hC.1, hC.2⟩

/-- Witness for the amended C6: two nonempty agent segments in a fresh
agent-capture window, and two nonempty customer segments in a
customer-capture window whose agent buffer already holds captured speech. -/
theorem append_accumulation_nonempty_witness :
    ((appendAgentResponses c6Window [("hi", 5), ("there", 9)]).capturedResponse
        = some (specAccum ("hi" :: [("there", 9)].map Prod.fst)) ∧
      (appendAgentResponses c6Window [("hi", 5), ("there", 9)]).responseTimestamp
        = some 5) ∧
    ((appendCustomerReactions c6CustomerWindow [("ok", 7), ("sure", 11)]).customerReaction
        = some (specAccum ("ok" :: [("sure", 11)].map Prod.fst)) ∧
      (appendCustomerReactions c6CustomerWindow [("ok", 7), ("sure", 11)]).reactionTimestamp
        = some 7) :=
  ⟨(append_accumulation_nonempty c6Window "hi" 5 [("there", 9)] (by decide)).1 (by decide),
   (append_accumulation_nonempty c6CustomerWindow "ok" 7 [("sure", 11)]
      (by decide)).2 (by decide)⟩

/-! ## C3: contextual-tip failure rolls the state machine back -/

/-- C3: when contextual tip generation fails for an existing conversation
that `generateContextualNextTip` has moved into `GENERATING_NEXT`, the
conversation is left at `DISPLAYING_TIP` (never stuck at `GENERATING_NEXT`)
and an `ERROR` event with code `CONTEXTUAL_TIP_ERROR` is emitted to the
client. -/
theorem contextual_failure_recovers_state (st : ServerState) (conversationId : String)
    (err : String) (now : Nat) (c : Conversation)
    (h : ConversationService.getConversation st.svc conversationId = some c) :
    ConversationService.getConversation
        (generateContextualNextTip st conversationId (Except.error err) now).svc
        conversationId
      = some { c with state := some CoachingState.DISPLAYING_TIP } ∧
    (generateContextualNextTip st conversationId (Except.error err) now).events
      = st.events ++ [OutEvent.errorEvent
          { conversationId := some conversationId,
            message := "Failed to generate next tip",
            code := "CONTEXTUAL_TIP_ERROR", timestamp := now }] := by
  have h' : JsMap.get st.svc.conversations conversationId = some c := h
  constructor
  · simp only [generateContextualNextTip, ConversationService.getConversation, h',
      ConversationService.updateState, JsMap.get_set_self, emit]
  · simp only [generateContextualNextTip, ConversationService.getConversation, h',
      ConversationService.updateState, JsMap.get_set_self, emit]

/-- Witness for C3: a failed generation on a concrete conversation. -/
theorem contextual_failure_recovers_state_witness :
    ConversationService.getConversation
        (generateContextualNextTip { svc := demoSvc } "c1" (Except.error "boom") 7).svc "c1"
      = some { demoConv with state := some CoachingState.DISPLAYING_TIP } ∧
    (generateContextualNextTip { svc := demoSvc } "c1" (Except.error "boom") 7).events
      = [OutEvent.errorEvent
          { conversationId := some "c1", message := "Failed to generate next tip",
            code := "CONTEXTUAL_TIP_ERROR", timestamp := 7 }] :=
  contextual_failure_recovers_state { svc := demoSvc } "c1" "boom" 7 demoConv (by decide)

/-! ## C7: invalid option selection is a complete no-op -/

/-- C7: an `OPTION_SELECTED` event whose recommendation id is absent from
the store, or whose 1-based option number exceeds the stored option count,
leaves the entire server state unchanged: no conversation field changes, no
transition, no tip generation, no error event. -/
theorem optionSelected_invalid_noop (st : ServerState) (recommendationId : String)
    (selectedOption now : Nat)
    (h : ConversationService.getRecommendation st.svc recommendationId = none ∨
      ∃ rec, ConversationService.getRecommendation st.svc recommendationId = some rec ∧
        rec.options.length < selectedOption) :
    optionSelectedHandler st recommendationId selectedOption now = st := by
  rcases h with h | ⟨rec, h, hlen⟩
  · simp [optionSelectedHandler, h]
  · have hnone : jsOptionAt rec.options selectedOption = none := by
      unfold jsOptionAt
      rw [if_neg (by omega)]
      rw [List.get?_eq_none]
      omega
    simp [optionSelectedHandler, h, hnone]

/-- Witness for C7: `selectedOption = 5` against the stored two-option tip,
and a lookup of an id that was never stored. -/
theorem optionSelected_invalid_noop_witness :
    optionSelectedHandler c7State "rec1" 5 9 = c7State ∧
    optionSelectedHandler c7State "missing" 1 9 = c7State :=
  ⟨optionSelected_invalid_noop c7State "rec1" 5 9
      (Or.inr ⟨demoTip, by decide, by decide⟩),
   optionSelected_invalid_noop c7State "missing" 1 9 (Or.inl (by decide))⟩

/-! ## C9: an ended conversation still accepts transcripts -/

/-- C9: after `endConversation` succeeds (and before the delayed eviction),
`addTranscript` on that conversation still returns `true` and appends the
segment to its history — no mutation path checks `endTime`. -/
theorem ended_conversation_still_accepts_transcripts (svc : ConversationService)
    (conversationId : String) (now : Nat) (t : TranscriptSegment) (c : Conversation)
    (h : ConversationService.getConversation svc conversationId = some c) :
    (ConversationService.endConversation svc conversationId now).1 = true ∧
    (ConversationService.addTranscript
      (ConversationService.endConversation svc conversationId now).2 conversationId t).1
      = true ∧
    ConversationService.getConversation
      (ConversationService.addTranscript
        (ConversationService.endConversation svc conversationId now).2 conversationId t).2
      conversationId
      = some { c with
          endTime := some now,
          transcriptHistory := (c.transcriptHistory ++ [t]).rtake 50 } := by
  have h' : JsMap.get svc.conversations conversationId = some c := h
  have hend : ConversationService.getConversation
      (ConversationService.endConversation svc conversationId now).2 conversationId
      = some { c with endTime := some now } := by
    simp only [ConversationService.endConversation, h', ConversationService.getConversation]
    exact JsMap.get_set_self _ _ _
  refine ⟨by simp [ConversationService.endConversation, h'], ?_, ?_⟩
  · have h2 : JsMap.get (ConversationService.endConversation svc
        conversationId now).2.conversations conversationId
        = some { c with endTime := some now } := hend
    simp [ConversationService.addTranscript, h2]
  · exact getConversation_addTranscript_self _ _ _ _ hend

/-- Witness for C9: end `demoConv` at `t = 9`, then append one segment. -/
theorem ended_conversation_still_accepts_transcripts_witness :
    (ConversationService.endConversation demoSvc "c1" 9).1 = true ∧
    (ConversationService.addTranscript
      (ConversationService.endConversation demoSvc "c1" 9).2 "c1"
      (seg Speaker.agent "bye" 10)).1 = true ∧
    ConversationService.getConversation
      (ConversationService.addTranscript
        (ConversationService.endConversation demoSvc "c1" 9).2 "c1"
        (seg Speaker.agent "bye" 10)).2 "c1"
      = some { demoConv with
          endTime := some 9,
          transcriptHistory := (demoConv.transcriptHistory
            ++ [seg Speaker.agent "bye" 10]).rtake 50 } :=
  ended_conversation_still_accepts_transcripts demoSvc "c1" 9
    (seg Speaker.agent "bye" 10) demoConv (by decide)

/-! ## C10: the active-conversation listing -/

/-- C10: `getActiveConversations` returns exactly the stored conversations
whose `endTime` is unset (over states whose recorded end times are nonzero,
as `Date.now()` values always are), and immediately after a successful
`endConversation` the ended conversation is excluded from the active list
while `getConversation` still returns it (until its delayed removal). -/
theorem getActiveConversations_excludes_ended (svc : ConversationService)
    (conversationId : String) (now : Nat) (c : Conversation)
    (hpos : ∀ d ∈ JsMap.values svc.conversations, d.endTime ≠ some 0)
    (hnow : now ≠ 0)
    (h : ConversationService.getConversation svc conversationId = some c) :
    ConversationService.getActiveConversations svc
      = (JsMap.values svc.conversations).filter (fun d => d.endTime.isNone) ∧
    ConversationService.getConversation
      (ConversationService.endConversation svc conversationId now).2 conversationId
      = some { c with endTime := some now } ∧
    { c with endTime := some now }
      ∉ ConversationService.getActiveConversations
          (ConversationService.endConversation svc conversationId now).2 := by
  have h' : JsMap.get svc.conversations conversationId = some c := h
  refine ⟨?_, ?_, ?_⟩
  · rw [ConversationService.getActiveConversations]
    refine List.filter_congr ?_
    intro d hd
    cases he : d.endTime with
    | none => simp [natFalsy]
    | some n =>
      have : n ≠ 0 := by
        intro h0
        exact hpos d hd (by rw [he, h0])
      simp [natFalsy, he, this]
  · simp only [ConversationService.endConversation, h', ConversationService.getConversation]
    exact JsMap.get_set_self _ _ _
  · intro hmem
    rw [ConversationService.getActiveConversations] at hmem
    have hf := (List.mem_filter.mp hmem).2
    simp [natFalsy, hnow] at hf

/-- Witness for C10: end `demoConv` at `t = 7`. -/
theorem getActiveConversations_excludes_ended_witness :
    ConversationService.getActiveConversations demoSvc
      = (JsMap.values demoSvc.conversations).filter (fun d => d.endTime.isNone) ∧
    ConversationService.getConversation
      (ConversationService.endConversation demoSvc "c1" 7).2 "c1"
      = some { demoConv with endTime := some 7 } ∧
    { demoConv with endTime := some 7 }
      ∉ ConversationService.getActiveConversations
          (ConversationService.endConversation demoSvc "c1" 7).2 :=
  getActiveConversations_excludes_ended demoSvc "c1" 7 demoConv (by decide) (by decide)
    (by decide)

/-- Witness for C2: a concrete selection on a conversation sitting in
`IDLE`. -/
theorem storeSelectedScript_resets_capture_witness :
    (ConversationService.storeSelectedScript demoSvc "c1" "rec1" 2 "hello there"
      "Minimal" 42).1 = true ∧
    ConversationService.getConversation
      (ConversationService.storeSelectedScript demoSvc "c1" "rec1" 2 "hello there"
        "Minimal" 42).2 "c1"
      = some { demoConv with
          lastSelectedRecommendationId := some "rec1",
          lastSelectedScript := some "hello there",
          lastScriptType := some "Minimal",
          lastScriptTimestamp := some 42,
          state := some CoachingState.CAPTURING_AGENT_RESPONSE,
          capturedResponse := some "",
          customerReaction := some "" } :=
  storeSelectedScript_resets_capture demoSvc "c1" "rec1" "hello there" "Minimal" 2 42
    demoConv (by decide)

/-! ## C5: recommendation store round-trip and eviction -/

theorem JsMap.get_append_of_some {α : Type} (a b : JsMap α) (k : String) (v : α)
    (h : JsMap.get a k = some v) : JsMap.get (a ++ b) k = some v := by
  induction a with
  | nil => simp [JsMap.get] at h
  | cons hd tl ih =>
    obtain ⟨k2, v2⟩ := hd
    by_cases h2 : k2 = k
    · simp only [JsMap.get, if_pos h2] at h
      simp only [List.cons_append, JsMap.get, if_pos h2]
      exact h
    · simp only [List.cons_append, JsMap.get, if_neg h2]
      exact ih (by simpa [JsMap.get, h2] using h)

theorem JsMap.length_set_le {α : Type} (m : JsMap α) (k : String) (v : α) :
    (JsMap.set m k v).length ≤ m.length + 1 := by
  induction m with
  | nil => simp [JsMap.set]
  | cons hd tl ih =>
    obtain ⟨k2, v2⟩ := hd
    by_cases h : k2 = k
    · simp [JsMap.set, h]
    · simp only [JsMap.set, if_neg h, List.length_cons]
      omega

/-- Storing a fresh recommendation while strictly below the cap appends it. -/
theorem storeRecommendation_fresh (svc : ConversationService) (t : AITipPayload)
    (h : JsMap.get svc.recommendations t.recommendationId = none)
    (hlen : svc.recommendations.length < 100) :
    (ConversationService.storeRecommendation svc t).recommendations
      = svc.recommendations ++ [(t.recommendationId, t)] := by
  simp only [ConversationService.storeRecommendation, JsMap.set_eq_append _ _ _ h]
  rw [if_neg (by
    simp only [JsMap.size, List.length_append, List.length_cons, List.length_nil]
    omega)]

/-- Storing a fresh recommendation at exactly the 100-entry cap appends it
and evicts the oldest entry. -/
theorem storeRecommendation_at_cap (svc : ConversationService) (t : AITipPayload)
    (k0 : String) (v0 : AITipPayload) (m2 : JsMap AITipPayload)
    (hrecs : svc.recommendations = (k0, v0) :: m2)
    (hget : JsMap.get svc.recommendations t.recommendationId = none)
    (hlen : m2.length = 99) :
    (ConversationService.storeRecommendation svc t).recommendations
      = m2 ++ [(t.recommendationId, t)] := by
  have hget2 : JsMap.get ((k0, v0) :: m2) t.recommendationId = none := by
    rw [← hrecs]
    exact hget
  simp only [ConversationService.storeRecommendation, hrecs,
    JsMap.set_eq_append _ _ _ hget2, List.cons_append]
  rw [if_pos (by
    simp only [JsMap.size, List.length_cons, List.length_append, List.length_nil]
    omega)]
  have hkl : (JsMap.keys ((k0, v0) :: (m2 ++ [(t.recommendationId, t)]))).length = 101 := by
    simp [JsMap.keys, hlen]
  rw [hkl]
  have htake : (JsMap.keys ((k0, v0) :: (m2 ++ [(t.recommendationId, t)]))).take (101 - 100)
      = [k0] := by
    simp [JsMap.keys]
  rw [htake]
  simp [JsMap.del]

/-- Round-trip through `storeRecommendation` for a store obeying the
reachable-state invariants (unique keys, at most 100 entries). -/
theorem storeRecommendation_get_self (svc : ConversationService) (t : AITipPayload)
    (_hnodup : (JsMap.keys svc.recommendations).Nodup)
    (hcap : JsMap.size svc.recommendations ≤ 100) :
    ConversationService.getRecommendation (ConversationService.storeRecommendation svc t)
      t.recommendationId = some t := by
  cases hget : JsMap.get svc.recommendations t.recommendationId with
  | some w =>
    have hsz : (JsMap.set svc.recommendations t.recommendationId t).length
        = svc.recommendations.length := JsMap.length_set_of_get_some _ _ _ _ hget
    have hcap' : svc.recommendations.length ≤ 100 := hcap
    simp only [ConversationService.storeRecommendation, ConversationService.getRecommendation]
    rw [if_neg (by simp only [JsMap.size, hsz]; omega)]
    exact JsMap.get_set_self _ _ _
  | none =>
    by_cases hfull : svc.recommendations.length = 100
    · obtain ⟨hd, m2, hm⟩ : ∃ hd m2, svc.recommendations = hd :: m2 := by
        cases hr : svc.recommendations with
        | nil => rw [hr] at hfull; simp at hfull
        | cons a b => exact ⟨a, b, rfl⟩
      obtain ⟨k0, v0⟩ := hd
      have hm2 : m2.length = 99 := by
        have := hfull
        rw [hm] at this
        simpa using this
      have hres := storeRecommendation_at_cap svc t k0 v0 m2 hm hget hm2
      show JsMap.get (ConversationService.storeRecommendation svc t).recommendations
        t.recommendationId = some t
      rw [hres]
      have hk0 : k0 ≠ t.recommendationId := by
        intro he
        rw [hm, JsMap.get, if_pos he] at hget
        exact Option.noConfusion hget
      have hm2get : JsMap.get m2 t.recommendationId = none := by
        rw [hm, JsMap.get, if_neg hk0] at hget
        exact hget
      rw [JsMap.get_append_of_none _ _ _ hm2get]
      simp [JsMap.get]
    · have hlt : svc.recommendations.length < 100 := by
        have : svc.recommendations.length ≤ 100 := hcap
        omega
      have hres := storeRecommendation_fresh svc t hget hlt
      show JsMap.get (ConversationService.storeRecommendation svc t).recommendations
        t.recommendationId = some t
      rw [hres, JsMap.get_append_of_none _ _ _ hget]
      simp [JsMap.get]

theorem storeAll_append (svc : ConversationService) (xs ys : List AITipPayload) :
    storeAll svc (xs ++ ys) = storeAll (storeAll svc xs) ys := by
  simp [storeAll, List.foldl_append]

theorem recPairs_keys (tips : List AITipPayload) :
    JsMap.keys (recPairs tips) = tips.map AITipPayload.recommendationId := by
  simp [recPairs, JsMap.keys, List.map_map]

/-- Filling the store with fresh, pairwise-distinct recommendations below
the cap appends them all in order. -/
theorem storeAll_fresh (tips : List AITipPayload) :
    ∀ svc : ConversationService,
      (∀ t ∈ tips, JsMap.get svc.recommendations t.recommendationId = none) →
      (tips.map AITipPayload.recommendationId).Nodup →
      svc.recommendations.length + tips.length ≤ 100 →
      (storeAll svc tips).recommendations = svc.recommendations ++ recPairs tips := by
  induction tips with
  | nil =>
    intro svc _ _ _
    simp [storeAll, recPairs]
  | cons t rest ih =>
    intro svc hfresh hnodup hlen
    have hlen' : svc.recommendations.length < 100 := by
      simp only [List.length_cons] at hlen
      omega
    have hstep := storeRecommendation_fresh svc t (hfresh t (by simp)) hlen'
    have hrun : storeAll svc (t :: rest)
        = storeAll (ConversationService.storeRecommendation svc t) rest := rfl
    have hnottid : t.recommendationId ∉ rest.map AITipPayload.recommendationId := by
      have := hnodup
      simp only [List.map_cons, List.nodup_cons] at this
      exact this.1
    have hfresh2 : ∀ u ∈ rest, JsMap.get
        (ConversationService.storeRecommendation svc t).recommendations
        u.recommendationId = none := by
      intro u hu
      rw [hstep, JsMap.get_append_of_none _ _ _ (hfresh u (List.mem_cons_of_mem _ hu))]
      have hne : t.recommendationId ≠ u.recommendationId := by
        intro he
        exact hnottid (he ▸ List.mem_map_of_mem _ hu)
      simp [JsMap.get, hne]
    have hnodup2 : (rest.map AITipPayload.recommendationId).Nodup := by
      have := hnodup
      simp only [List.map_cons, List.nodup_cons] at this
      exact this.2
    have hlen2 : (ConversationService.storeRecommendation svc t).recommendations.length
        + rest.length ≤ 100 := by
      rw [hstep]
      simp only [List.length_append, List.length_cons, List.length_nil]
      simp only [List.length_cons] at hlen
      omega
    rw [hrun, ih _ hfresh2 hnodup2 hlen2, hstep]
    simp [recPairs]

/-- C5: a stored tip is immediately retrievable with identical field values;
it stays retrievable while later tips with other ids are stored below the
cap; and storing 101 tips with pairwise-distinct ids into an empty store
evicts the first-stored id and leaves exactly 100 entries. -/
theorem storeRecommendation_roundtrip_eviction :
    (∀ (svc : ConversationService) (tip : AITipPayload),
      (JsMap.keys svc.recommendations).Nodup →
      JsMap.size svc.recommendations ≤ 100 →
      ConversationService.getRecommendation
        (ConversationService.storeRecommendation svc tip) tip.recommendationId
        = some tip) ∧
    (∀ (svc : ConversationService) (tip tip2 : AITipPayload),
      tip2.recommendationId ≠ tip.recommendationId →
      ConversationService.getRecommendation svc tip.recommendationId = some tip →
      JsMap.size svc.recommendations ≤ 99 →
      ConversationService.getRecommendation
        (ConversationService.storeRecommendation svc tip2) tip.recommendationId
        = some tip) ∧
    (∀ (svc0 : ConversationService) (tips : List AITipPayload) (first : AITipPayload),
      svc0.recommendations = [] →
      tips.length = 101 →
      (tips.map AITipPayload.recommendationId).Nodup →
      tips.head? = some first →
      ConversationService.getRecommendation (storeAll svc0 tips) first.recommendationId
          = none ∧
      JsMap.size (storeAll svc0 tips).recommendations = 100) := by
  refine ⟨storeRecommendation_get_self, ?_, ?_⟩
  · intro svc tip tip2 hne hget hcap
    have hsz : (JsMap.set svc.recommendations tip2.recommendationId tip2).length
        ≤ svc.recommendations.length + 1 := JsMap.length_set_le _ _ _
    have hcap' : svc.recommendations.length ≤ 99 := hcap
    simp only [ConversationService.storeRecommendation, ConversationService.getRecommendation]
    rw [if_neg (by simp only [JsMap.size]; omega)]
    rw [JsMap.get_set_ne _ _ _ _ hne]
    exact hget
  · intro svc0 tips first h0 hlen hnodup hhead
    obtain ⟨t0, rest, rfl⟩ : ∃ t0 rest, tips = t0 :: rest := by
      cases tips with
      | nil => simp at hlen
      | cons a b => exact ⟨a, b, rfl⟩
    have hfirst : t0 = first := by
      simpa using hhead
    subst hfirst
    have hrl : rest.length = 100 := by simpa using hlen
    obtain ⟨tl, hdl⟩ : ∃ tl, rest.drop 99 = [tl] := by
      have hdlen : (rest.drop 99).length = 1 := by simp [hrl]
      cases hdd : rest.drop 99 with
      | nil => rw [hdd] at hdlen; simp at hdlen
      | cons x xs =>
        rw [hdd] at hdlen
        simp only [List.length_cons] at hdlen
        have : xs = [] := List.length_eq_zero.mp (by omega)
        exact ⟨x, by rw [this]⟩
    have hsplit : (t0 :: rest) = (t0 :: rest.take 99) ++ [tl] := by
      conv =>
        lhs
        rw [← List.take_append_drop 99 rest]
      rw [hdl]
      simp
    have htk : (rest.take 99).length = 99 := by simp [hrl]
    -- the id lists
    have hmapsplit : (t0 :: rest).map AITipPayload.recommendationId
        = (t0.recommendationId :: (rest.take 99).map AITipPayload.recommendationId)
          ++ [tl.recommendationId] := by
      rw [hsplit]
      simp
    have hnodup' := hnodup
    rw [hmapsplit] at hnodup'
    have hfront : ((t0 :: rest.take 99).map AITipPayload.recommendationId).Nodup := by
      have : (t0 :: rest.take 99).map AITipPayload.recommendationId
          = t0.recommendationId :: (rest.take 99).map AITipPayload.recommendationId := by
        simp
      rw [this]
      exact (List.nodup_append.mp hnodup').1
    have htl_notmem : tl.recommendationId
        ∉ t0.recommendationId :: (rest.take 99).map AITipPayload.recommendationId := by
      intro hmem
      have hdisj := (List.nodup_append.mp hnodup').2.2
      exact hdisj hmem (by simp)
    -- fill the first 100 fresh tips
    have hfill := storeAll_fresh (t0 :: rest.take 99) svc0
      (by intro u _; rw [h0]; rfl) hfront
      (by rw [h0]; simp [htk])
    rw [h0, List.nil_append] at hfill
    have hrecs100 : (storeAll svc0 (t0 :: rest.take 99)).recommendations
        = (t0.recommendationId, t0) :: recPairs (rest.take 99) := by
      rw [hfill]
      simp [recPairs]
    -- the 101st store evicts the head
    have hget_tl : JsMap.get (storeAll svc0 (t0 :: rest.take 99)).recommendations
        tl.recommendationId = none := by
      rw [JsMap.get_eq_none_iff, hrecs100]
      intro hmem
      apply htl_notmem
      have : JsMap.keys ((t0.recommendationId, t0) :: recPairs (rest.take 99))
          = t0.recommendationId :: (rest.take 99).map AITipPayload.recommendationId := by
        simp only [JsMap.keys, List.map_cons]
        rw [← JsMap.keys, recPairs_keys]
      rwa [this] at hmem
    have hm2len : (recPairs (rest.take 99)).length = 99 := by
      simp only [recPairs, List.length_map]
      exact htk
    have hcapres := storeRecommendation_at_cap (storeAll svc0 (t0 :: rest.take 99)) tl
      t0.recommendationId t0 (recPairs (rest.take 99)) hrecs100 hget_tl hm2len
    have hlast : storeAll svc0 (t0 :: rest)
        = ConversationService.storeRecommendation (storeAll svc0 (t0 :: rest.take 99)) tl := by
      rw [hsplit, storeAll_append]
      rfl
    constructor
    · show JsMap.get (storeAll svc0 (t0 :: rest)).recommendations t0.recommendationId = none
      rw [hlast, hcapres]
      have ht0_notmem_tk : t0.recommendationId
          ∉ (rest.take 99).map AITipPayload.recommendationId := by
        have := hfront
        simp only [List.map_cons, List.nodup_cons] at this
        exact this.1
      have hget_tk : JsMap.get (recPairs (rest.take 99)) t0.recommendationId = none := by
        rw [JsMap.get_eq_none_iff, recPairs_keys]
        exact ht0_notmem_tk
      rw [JsMap.get_append_of_none _ _ _ hget_tk]
      have hne : tl.recommendationId ≠ t0.recommendationId := by
        intro he
        exact htl_notmem (by simp [he])
      simp [JsMap.get, hne]
    · rw [hlast]
      simp only [JsMap.size, hcapres, List.length_append, List.length_cons,
        List.length_nil]
      omega

theorem tips101_length : tips101.length = 101 := by
  simp [tips101]

theorem mkTipId_inj : Function.Injective mkTipId := by
  intro i j h
  have hlen := congrArg String.length h
  simpa [mkTipId, String.length] using hlen

theorem tips101_ids_nodup : (tips101.map AITipPayload.recommendationId).Nodup := by
  have hmm : tips101.map AITipPayload.recommendationId = (List.range 101).map mkTipId := by
    simp only [tips101, List.map_map]
    rfl
  rw [hmm]
  exact (List.nodup_range 101).map mkTipId_inj

theorem tips101_head : tips101.head? = some (mkTip 0) := by
  decide

/-- Witness for C5: an immediate round-trip of a concrete tip, and the
101-distinct-tip eviction run from an empty store. -/
theorem storeRecommendation_roundtrip_eviction_witness :
    ConversationService.getRecommendation
        (ConversationService.storeRecommendation {} demoTip) demoTip.recommendationId
      = some demoTip ∧
    (ConversationService.getRecommendation (storeAll {} tips101)
        (mkTip 0).recommendationId = none ∧
      JsMap.size (storeAll {} tips101).recommendations = 100) :=
  ⟨storeRecommendation_roundtrip_eviction.1 {} demoTip (by decide) (by decide),
   storeRecommendation_roundtrip_eviction.2.2 {} tips101 (mkTip 0) rfl tips101_length
     tips101_ids_nodup tips101_head⟩

end CallCoach
